import Mathlib

/-!
Verification development for the gmail-sdk core: the token lifecycle manager
(src/gmail_sdk/auth.py), the MIME composer (src/gmail_sdk/mime_utils.py) and
the convenience layer (src/gmail_sdk/convenience.py), shallowly embedded in
Lean.  Times are modelled as rationals (Python uses floating-point epoch
seconds), JSON objects as structures with optional fields, byte strings as
lists of naturals, and the fallible paths (HTTP failure, missing JSON keys,
base64 decode errors) as `Except` values.
-/

set_option maxHeartbeats 1000000

/-! ## Token lifecycle (src/gmail_sdk/auth.py) -/

/-- The OAuth client credentials loaded by `AuthMixin._load_credentials`
(`credentials.json`, key `installed` or `web`). -/
structure ClientCredentials where
  client_id : String
  client_secret : String
deriving DecidableEq

/-- The parsed JSON body returned by the token endpoint on a refresh.
Every field the provider may omit is optional. -/
structure RefreshJson where
  access_token : Option String
  refresh_token : Option String
  expires_in : Option Rat
deriving DecidableEq

/-- `new_data` as produced by `AuthMixin.refresh_access_token`: the endpoint
JSON with the absolute `expires_at` field added. -/
structure RefreshResult where
  access_token : Option String
  refresh_token : Option String
  expires_at : Rat
deriving DecidableEq

/-- Embeds `AuthMixin.refresh_access_token` (auth.py lines 95-123).  The HTTP
POST is abstracted as its outcome `httpResponse`; `resp.raise_for_status()`
propagates a failure, otherwise `expires_at = now + json.get("expires_in", 3600)`
is added to the response fields. -/
def refresh_access_token (now : Rat) (httpResponse : Except Unit RefreshJson) :
    Except Unit RefreshResult :=
  match httpResponse with
  | .error e => .error e
  | .ok j => .ok ⟨j.access_token, j.refresh_token, now + j.expires_in.getD 3600⟩

/-- A stored token record (`gmail-{account}.json`), as a JSON object whose
keys may individually be absent.  Provider-specific extra fields are not
modelled: the code never reads them and copies them through unchanged. -/
structure TokenData where
  access_token : Option String
  refresh_token : Option String
  expires_at : Option Rat
deriving DecidableEq

/-- The failure modes of `AuthMixin._load_and_refresh_token`:
`notAuthorized` is the `FileNotFoundError` for a missing token file,
`configError` a failure of `_load_credentials`, `keyError` a missing
mandatory JSON key (`token_data["refresh_token"]`, `new_data["access_token"]`,
`token_data["access_token"]`), and `refreshFailed` an HTTP failure of the
token-endpoint call (the spec taxonomy calls this RefreshFailedError). -/
inductive AuthError where
  | notAuthorized
  | configError
  | keyError
  | refreshFailed
deriving DecidableEq

/-- The refresh condition of auth.py line 164:
`token_data.get("expires_at", 0) < time.time() + 300`. -/
def needs_refresh (td : TokenData) (now : Rat) : Bool :=
  decide (td.expires_at.getD 0 < now + 300)

/-- Embeds `AuthMixin._load_and_refresh_token` (auth.py lines 154-178).
`disk` is the stored token file content (`none` when the file is missing),
`now` the wall clock, `creds` the outcome of `_load_credentials`, and
`tokenEndpoint` the outcome of the HTTP POST inside `refresh_access_token`.
Returns the call result together with the on-disk state after the call
(`_save_token` runs only on the success path of a refresh). -/
def load_and_refresh_token (disk : Option TokenData) (now : Rat)
    (creds : Except Unit ClientCredentials)
    (tokenEndpoint : Except Unit RefreshJson) :
    Except AuthError String × Option TokenData :=
  match disk with
  | none => (.error .notAuthorized, none)
  | some td =>
    if needs_refresh td now then
      match creds with
      | .error _ => (.error .configError, some td)
      | .ok _ =>
        match td.refresh_token with
        | none => (.error .keyError, some td)
        | some _ =>
          match refresh_access_token now tokenEndpoint with
          | .error _ => (.error .refreshFailed, some td)
          | .ok nd =>
            match nd.access_token with
            | none => (.error .keyError, some td)
            | some a =>
              let newRefresh : Option String :=
                match nd.refresh_token with
                | some r => some r
                | none => td.refresh_token
              (.ok a, some ⟨some a, newRefresh, some nd.expires_at⟩)
    else
      match td.access_token with
      | none => (.error .keyError, some td)
      | some a => (.ok a, some td)

/-! ## Claims C1, C3, C4 -/

/-- C1 (counterexample): the claim asserts that a `getValidAccessToken` call
made at time `expires_at - 301s` performs a refresh.  It does not: with
`expires_at = 1000` and `now = 699 = expires_at - 301` the cached access token
is returned unchanged and the call succeeds even though the token endpoint
would fail, so no refresh is performed there. -/
theorem c1_counterexample :
    load_and_refresh_token (some ⟨some "tokA", some "R1", some 1000⟩) 699
      (.ok ⟨"cid", "secret"⟩) (.error ()) =
      (.ok "tokA", some ⟨some "tokA", some "R1", some 1000⟩) := by
  have h : ¬ ((1000 : Rat) < 699 + 300) := by norm_num
  simp [load_and_refresh_token, needs_refresh, h]

/-- C1 (amended): `getValidAccessToken` refreshes exactly when
`expires_at < now + 300` (5-minute safety margin); consequently a call made at
time `expires_at - 299s` refreshes and a call made at time `expires_at - 301s`
does not (the frozen claim states these two boundary instances the other way
round). -/
theorem c1_refresh_window (td : TokenData) (now : Rat) (a r1 b : String)
    (creds : ClientCredentials) (j : RefreshJson)
    (ha : td.access_token = some a) (hr : td.refresh_token = some r1)
    (hb : j.access_token = some b) :
    (load_and_refresh_token (some td) now (.ok creds) (.ok j) =
      if td.expires_at.getD 0 < now + 300 then
        (.ok b, some ⟨some b,
          (match j.refresh_token with | some r => some r | none => some r1),
          some (now + j.expires_in.getD 3600)⟩)
      else (.ok a, some td))
    ∧ (∀ e : Rat,
        load_and_refresh_token (some ⟨some a, some r1, some e⟩) (e - 301)
          (.ok creds) (.ok j) = (.ok a, some ⟨some a, some r1, some e⟩))
    ∧ (∀ e : Rat,
        load_and_refresh_token (some ⟨some a, some r1, some e⟩) (e - 299)
          (.ok creds) (.ok j) =
          (.ok b, some ⟨some b,
            (match j.refresh_token with | some r => some r | none => some r1),
            some ((e - 299) + j.expires_in.getD 3600)⟩)) := by
  refine ⟨?_, ?_, ?_⟩
  · by_cases h : td.expires_at.getD 0 < now + 300
    · rw [if_pos h]
      simp [load_and_refresh_token, needs_refresh, h, refresh_access_token, hr, hb]
    · rw [if_neg h]
      simp [load_and_refresh_token, needs_refresh, h, ha]
  · intro e
    have h : ¬ ((e : Rat) < (e - 301) + 300) := by linarith
    simp [load_and_refresh_token, needs_refresh, h]
  · intro e
    have h : (e : Rat) < (e - 299) + 300 := by linarith
    simp [load_and_refresh_token, needs_refresh, h, refresh_access_token, hb]

/-- C1 (witness): instantiates the amended theorem at `expires_at = 0`,
`now = -301`: no refresh, the cached token is returned. -/
theorem c1_witness :
    load_and_refresh_token (some ⟨some "A", some "R1", some 0⟩) (0 - 301)
      (.ok ⟨"i", "s"⟩) (.ok ⟨some "B", none, some 60⟩) =
      (.ok "A", some ⟨some "A", some "R1", some 0⟩) :=
  (c1_refresh_window ⟨some "A", some "R1", some 0⟩ 0 "A" "R1" "B" ⟨"i", "s"⟩
    ⟨some "B", none, some 60⟩ rfl rfl rfl).2.1 0

/-- C3: refreshing never loses a previously known refresh_token.  With a
stored `refresh_token = r1` and a refresh being performed, an endpoint
response omitting `refresh_token` persists `r1`, a response carrying `r2`
persists `r2`, and after any call whatsoever the stored record still carries
some refresh_token. -/
theorem c3_refresh_token_preservation (td : TokenData) (now : Rat) (r1 : String)
    (hr : td.refresh_token = some r1) :
    (∀ (creds : ClientCredentials) (j : RefreshJson) (b : String),
        needs_refresh td now = true → j.access_token = some b →
        j.refresh_token = none →
        (load_and_refresh_token (some td) now (.ok creds) (.ok j)).2 =
          some ⟨some b, some r1, some (now + j.expires_in.getD 3600)⟩)
    ∧ (∀ (creds : ClientCredentials) (j : RefreshJson) (b r2 : String),
        needs_refresh td now = true → j.access_token = some b →
        j.refresh_token = some r2 →
        (load_and_refresh_token (some td) now (.ok creds) (.ok j)).2 =
          some ⟨some b, some r2, some (now + j.expires_in.getD 3600)⟩)
    ∧ (∀ (creds : Except Unit ClientCredentials)
        (tokenEndpoint : Except Unit RefreshJson) (td' : TokenData),
        (load_and_refresh_token (some td) now creds tokenEndpoint).2 = some td' →
        ∃ r', td'.refresh_token = some r') := by
  refine ⟨?_, ?_, ?_⟩
  · intro creds j b h hb hrj
    simp [load_and_refresh_token, h, hr, refresh_access_token, hb, hrj]
  · intro creds j b r2 h hb hrj
    simp [load_and_refresh_token, h, hr, refresh_access_token, hb, hrj]
  · intro creds tokenEndpoint td' hEq
    by_cases h : needs_refresh td now
    · rcases creds with _ | creds
      · simp [load_and_refresh_token, h] at hEq
        exact ⟨r1, hEq ▸ hr⟩
      · rcases tokenEndpoint with _ | j
        · simp [load_and_refresh_token, h, hr, refresh_access_token] at hEq
          exact ⟨r1, hEq ▸ hr⟩
        · rcases hja : j.access_token with _ | b
          · simp [load_and_refresh_token, h, hr, refresh_access_token, hja] at hEq
            exact ⟨r1, hEq ▸ hr⟩
          · rcases hjr : j.refresh_token with _ | r2
            · simp [load_and_refresh_token, h, hr, refresh_access_token, hja, hjr] at hEq
              exact ⟨r1, hEq ▸ rfl⟩
            · simp [load_and_refresh_token, h, hr, refresh_access_token, hja, hjr] at hEq
              exact ⟨r2, hEq ▸ rfl⟩
    · rcases hta : td.access_token with _ | a
      · simp [load_and_refresh_token, h, hta] at hEq
        exact ⟨r1, hEq ▸ hr⟩
      · simp [load_and_refresh_token, h, hta] at hEq
        exact ⟨r1, hEq ▸ hr⟩

/-- C3 (witness): a stored record with refresh_token R1, refreshed with a
response omitting refresh_token, keeps R1. -/
theorem c3_witness :
    (load_and_refresh_token (some ⟨some "A", some "R1", some 0⟩) 0
      (.ok ⟨"i", "s"⟩) (.ok ⟨some "B", none, none⟩)).2 =
      some ⟨some "B", some "R1", some (0 + (3600 : Rat))⟩ :=
  (c3_refresh_token_preservation ⟨some "A", some "R1", some 0⟩ 0 "R1" rfl).1
    ⟨"i", "s"⟩ ⟨some "B", none, none⟩ "B" (by norm_num [needs_refresh]) rfl rfl

/-- C4: when the token-endpoint call made during a refresh fails, the failure
propagates to the caller (as the error the spec taxonomy names
RefreshFailedError) and the on-disk record is exactly the one from before the
call: nothing is persisted. -/
theorem c4_refresh_failure_atomic (td : TokenData) (now : Rat)
    (creds : ClientCredentials) (r1 : String)
    (hr : td.refresh_token = some r1) (h : needs_refresh td now = true) :
    load_and_refresh_token (some td) now (.ok creds) (.error ()) =
      (.error .refreshFailed, some td) := by
  simp [load_and_refresh_token, h, hr, refresh_access_token]

/-- C4 (witness): concrete instance of the refresh-failure atomicity. -/
theorem c4_witness :
    load_and_refresh_token (some ⟨some "A", some "R1", some 100⟩) 0
      (.ok ⟨"i", "s"⟩) (.error ()) =
      (.error .refreshFailed, some ⟨some "A", some "R1", some 100⟩) :=
  c4_refresh_failure_atomic ⟨some "A", some "R1", some 100⟩ 0 ⟨"i", "s"⟩ "R1"
    rfl (by norm_num [needs_refresh])

/-! ## MIME composer (src/gmail_sdk/mime_utils.py) -/

/-- Models Python `str.lower()` (character-wise lowering; the subjects and
addresses compared by this code are ASCII, where the two coincide). -/
def pyLower (s : String) : String := String.mk (s.data.map Char.toLower)

/-- Models Python `str.startswith(p)`. -/
def pyStartsWith (s p : String) : Bool := List.isPrefixOf p.data s.data

/-- The body structure of the MIME object assembled by the composers: either
a single `MIMEText(body, subtype)`, or a `MIMEMultipart(subtype)` whose
attached `MIMEText(body, subtype)` parts are listed in attachment order as
(subtype, body) pairs. -/
inductive MimeContent where
  | text (subtype : String) (body : String)
  | multipart (subtype : String) (parts : List (String × String))
deriving DecidableEq

/-- The in-memory MIME message right before `encode_message`: its content and
the headers assigned with `msg[name] = value`, in assignment order. -/
structure MimeMsg where
  content : MimeContent
  headers : List (String × String)
deriving DecidableEq

/-- The builders guard each optional header with Python truthiness
(`if from_addr:` and so on), so `None` and `""` are both skipped. -/
def optHeader (name : String) (v : Option String) : List (String × String) :=
  match v with
  | none => []
  | some s => if s = "" then [] else [(name, s)]

/-- The content assembly shared by the builders (mime_utils.py lines 40-45,
82-87, 127-132): `if html_body:` is Python truthiness, so `None` and `""`
both take the single-part `MIMEText(body)` branch. -/
def simpleContent (body : String) (html_body : Option String) : MimeContent :=
  match html_body with
  | some h =>
    if h = "" then .text "plain" body
    else .multipart "alternative" [("plain", body), ("html", h)]
  | none => .text "plain" body

/-- Embeds the message assembly of `build_simple_message` (mime_utils.py
lines 16-54) up to, but not including, the final `encode_message` call. -/
def build_simple_mime (to_ subject body : String)
    (from_addr cc bcc html_body : Option String) : MimeMsg :=
  ⟨simpleContent body html_body,
    [("To", to_), ("Subject", subject)] ++ optHeader "From" from_addr
      ++ optHeader "Cc" cc ++ optHeader "Bcc" bcc⟩

/-- Embeds the message assembly of `build_reply_message` (mime_utils.py
lines 57-96) up to the final `encode_message` call: like `build_simple_mime`
minus Bcc, plus the threading headers, where
`msg["References"] = references or message_id` (Python `or`: both `None` and
`""` fall back to `message_id`). -/
def build_reply_mime (to_ subject body message_id : String)
    (references from_addr cc html_body : Option String) : MimeMsg :=
  ⟨simpleContent body html_body,
    [("To", to_), ("Subject", subject), ("In-Reply-To", message_id),
      ("References",
        match references with
        | some r => if r = "" then message_id else r
        | none => message_id)]
      ++ optHeader "From" from_addr ++ optHeader "Cc" cc⟩

/-- Header lookup on the assembled message (first assignment wins, matching
what a reader of the serialized message sees for these single-valued
headers). -/
def getHeaderVal (m : MimeMsg) (name : String) : Option String :=
  (m.headers.find? (fun h => h.1 == name)).map Prod.snd

/-- The subject derivation of `ConvenienceMixin.reply` (convenience.py lines
55-57) and `ConvenienceMixin.reply_all` (lines 134-136), which run the same
two statements: prefix with "Re: " unless the lowered subject already starts
with "re:". -/
def reply_subject (subject : String) : String :=
  if pyStartsWith (pyLower subject) "re:" then subject else "Re: " ++ subject

/-- The subject derivation of `ConvenienceMixin.forward` (convenience.py
lines 91-93). -/
def forward_subject (subject : String) : String :=
  if pyStartsWith (pyLower subject) "fwd:" then subject else "Fwd: " ++ subject

/-! ## Claims C6, C7, C10 -/

/-- C6 (counterexample): with `references` provided as the empty string, the
References header is set to the message id, not to the provided value. -/
theorem c6_counterexample :
    getHeaderVal (build_reply_mime "a@x" "s" "b" "<m1@x>" (some "") none none none)
        "References" = some "<m1@x>"
    ∧ ("<m1@x>" : String) ≠ "" := by
  exact ⟨rfl, by decide⟩

/-- C6 (amended): `buildReply` sets `In-Reply-To = messageId` always, and
`References = references` when a non-empty references value is provided,
falling back to `messageId` when references is absent or empty (Python
`references or message_id`); in particular with messageId "<m1@x>" and no
references both headers are "<m1@x>". -/
theorem c6_reply_threading (to_ subject body message_id : String)
    (references from_addr cc html_body : Option String) :
    (getHeaderVal (build_reply_mime to_ subject body message_id references
        from_addr cc html_body) "In-Reply-To" = some message_id)
    ∧ (∀ r, references = some r → r ≠ "" →
        getHeaderVal (build_reply_mime to_ subject body message_id references
          from_addr cc html_body) "References" = some r)
    ∧ ((references = none ∨ references = some "") →
        getHeaderVal (build_reply_mime to_ subject body message_id references
          from_addr cc html_body) "References" = some message_id) := by
  refine ⟨rfl, ?_, ?_⟩
  · intro r href hr
    simp [build_reply_mime, getHeaderVal, href, hr]
  · rintro (href | href) <;> simp [build_reply_mime, getHeaderVal, href]

/-- C6 (witness): the claim's concrete instance, messageId "<m1@x>" with no
references. -/
theorem c6_witness :
    getHeaderVal (build_reply_mime "a@x" "Re: s" "b" "<m1@x>" none none none none)
        "References" = some "<m1@x>"
    ∧ getHeaderVal (build_reply_mime "a@x" "Re: s" "b" "<m1@x>" none none none none)
        "In-Reply-To" = some "<m1@x>" :=
  ⟨(c6_reply_threading "a@x" "Re: s" "b" "<m1@x>" none none none none).2.2
      (Or.inl rfl),
    (c6_reply_threading "a@x" "Re: s" "b" "<m1@x>" none none none none).1⟩

/-- C7 (counterexample): with `htmlBody` provided as the empty string
(present but falsy in Python), `buildSimple` produces a single-part plain
message, not a two-part multipart/alternative one. -/
theorem c7_counterexample :
    (build_simple_mime "a@x" "s" "hello" none none none (some "")).content =
        .text "plain" "hello"
    ∧ ∀ parts, MimeContent.text "plain" "hello" ≠ .multipart "alternative" parts :=
  ⟨rfl, fun _ h => MimeContent.noConfusion h⟩

/-- C7 (amended): `buildSimple` with absent or empty `htmlBody` produces a
single-part plain-text message carrying `body`; with a non-empty `htmlBody`
it produces a two-part multipart/alternative message, part 0 text/plain with
`body`, part 1 text/html with `htmlBody`, in that order. -/
theorem c7_simple_structure (to_ subject body : String)
    (from_addr cc bcc : Option String) :
    ((build_simple_mime to_ subject body from_addr cc bcc none).content =
        .text "plain" body)
    ∧ (∀ h, h ≠ "" →
        (build_simple_mime to_ subject body from_addr cc bcc (some h)).content =
          .multipart "alternative" [("plain", body), ("html", h)])
    ∧ ((build_simple_mime to_ subject body from_addr cc bcc (some "")).content =
        .text "plain" body) := by
  refine ⟨rfl, ?_, ?_⟩
  · intro h hh
    simp [build_simple_mime, simpleContent, hh]
  · simp [build_simple_mime, simpleContent]

/-- C7 (witness): both bodies set, two parts in plain-then-html order. -/
theorem c7_witness :
    (build_simple_mime "a@x" "s" "hello" none none none (some "<p>hi</p>")).content =
      .multipart "alternative" [("plain", "hello"), ("html", "<p>hi</p>")] :=
  (c7_simple_structure "a@x" "s" "hello" none none none).2.1 "<p>hi</p>" (by decide)

/-- C10: reply and reply-all send with subject "Re: " + subject unless the
subject already starts with "re:" case-insensitively (then unchanged), and
forward sends "Fwd: " + subject unless it already starts with "fwd:". -/
theorem c10_subject_prefixing (s : String) :
    (pyStartsWith (pyLower s) "re:" = true → reply_subject s = s)
    ∧ (pyStartsWith (pyLower s) "re:" = false → reply_subject s = "Re: " ++ s)
    ∧ (pyStartsWith (pyLower s) "fwd:" = true → forward_subject s = s)
    ∧ (pyStartsWith (pyLower s) "fwd:" = false →
        forward_subject s = "Fwd: " ++ s) := by
  refine ⟨fun h => ?_, fun h => ?_, fun h => ?_, fun h => ?_⟩ <;>
    simp [reply_subject, forward_subject, h]

/-- C10 (witness): concrete subjects on all four branches. -/
theorem c10_witness :
    reply_subject "RE: hi" = "RE: hi" ∧ reply_subject "hello" = "Re: hello"
    ∧ forward_subject "FWD: hi" = "FWD: hi"
    ∧ forward_subject "hello" = "Fwd: hello" :=
  ⟨(c10_subject_prefixing "RE: hi").1 rfl,
    (c10_subject_prefixing "hello").2.1 rfl,
    (c10_subject_prefixing "FWD: hi").2.2.1 rfl,
    (c10_subject_prefixing "hello").2.2.2 rfl⟩

/-! ## base64 and UTF-8 models

`_extract_body` calls `base64.urlsafe_b64decode(data).decode("utf-8",
errors="replace")` and `encode_message` calls
`base64.urlsafe_b64encode(raw).decode("ascii").rstrip("=")`; the following
definitions model those Python primitives at the level of character lists
and byte (`Nat`) lists. -/

/-- The standard base64 alphabet; the position of a character is its sextet
value. -/
def b64Alphabet : List Char :=
  ['A', 'B', 'C', 'D', 'E', 'F', 'G', 'H', 'I', 'J', 'K', 'L', 'M',
   'N', 'O', 'P', 'Q', 'R', 'S', 'T', 'U', 'V', 'W', 'X', 'Y', 'Z',
   'a', 'b', 'c', 'd', 'e', 'f', 'g', 'h', 'i', 'j', 'k', 'l', 'm',
   'n', 'o', 'p', 'q', 'r', 's', 't', 'u', 'v', 'w', 'x', 'y', 'z',
   '0', '1', '2', '3', '4', '5', '6', '7', '8', '9', '+', '/']

/-- The URL-safe base64 alphabet used by `urlsafe_b64encode` (RFC 4648 §5:
`-` and `_` instead of `+` and `/`). -/
def b64UrlAlphabet : List Char :=
  ['A', 'B', 'C', 'D', 'E', 'F', 'G', 'H', 'I', 'J', 'K', 'L', 'M',
   'N', 'O', 'P', 'Q', 'R', 'S', 'T', 'U', 'V', 'W', 'X', 'Y', 'Z',
   'a', 'b', 'c', 'd', 'e', 'f', 'g', 'h', 'i', 'j', 'k', 'l', 'm',
   'n', 'o', 'p', 'q', 'r', 's', 't', 'u', 'v', 'w', 'x', 'y', 'z',
   '0', '1', '2', '3', '4', '5', '6', '7', '8', '9', '-', '_']

/-- Sextet value of a standard-alphabet character; `none` for any other
character (skipped by the non-strict CPython decoder). -/
def sextetOf (c : Char) : Option Nat := b64Alphabet.findIdx? (· == c)

/-- The character translation `urlsafe_b64decode` applies before decoding:
`-` to `+` and `_` to `/`. -/
def urlsafeTranslate (c : Char) : Char :=
  if c = '-' then '+' else if c = '_' then '/' else c

/-- The decoding loop of CPython binascii.a2b_base64 in non-strict mode (the
behaviour reached from `base64.b64decode` with its default arguments):
characters outside the alphabet are skipped; a pad character at quad
position at least 2 that brings position+pads to 4 ends the input and
returns the bytes decoded so far; at end of input a leftover quad position
of 1 raises the invalid-length error and a leftover position of 2 or 3
raises the incorrect-padding error.  State: quad position `qp`, pending
bits `lc`, consecutive pad count `pads`, output accumulator `out`. -/
def a2bBase64 : List Char → Nat → Nat → Nat → List Nat → Except String (List Nat)
  | [], qp, _, _, out =>
    if qp = 0 then .ok out
    else if qp = 1 then .error "Invalid base64-encoded string"
    else .error "Incorrect padding"
  | c :: rest, qp, lc, pads, out =>
    if c = '=' then
      if 2 ≤ qp then
        if 4 ≤ qp + (pads + 1) then .ok out
        else a2bBase64 rest qp lc (pads + 1) out
      else a2bBase64 rest qp lc pads out
    else
      match sextetOf c with
      | none => a2bBase64 rest qp lc pads out
      | some v =>
        match qp with
        | 0 => a2bBase64 rest 1 v 0 out
        | 1 => a2bBase64 rest 2 (v % 16) 0 (out ++ [lc * 4 + v / 16])
        | 2 => a2bBase64 rest 3 (v % 4) 0 (out ++ [lc * 16 + v / 4])
        | _ => a2bBase64 rest 0 0 0 (out ++ [lc * 64 + v])

/-- Models Python `base64.urlsafe_b64decode` applied to a `str`: a non-ASCII
argument raises a ValueError from the internal ascii encode; otherwise `-`
and `_` are translated and the result decoded by binascii.a2b_base64 in
non-strict mode.  Returns the decoded bytes, or the raised error. -/
def urlsafe_b64decode (s : String) : Except String (List Nat) :=
  if s.data.all (fun c => c.toNat < 128) then
    a2bBase64 (s.data.map urlsafeTranslate) 0 0 0 []
  else .error "string argument should contain only ASCII characters"

/-- Character `n` of the URL-safe alphabet. -/
def b64ch (n : Nat) : Char := b64UrlAlphabet.getD n 'A'

/-- Models Python `base64.urlsafe_b64encode` on a byte string: three bytes
to four characters, with `=` padding on a final one- or two-byte group. -/
def b64UrlEncode : List Nat → List Char
  | b1 :: b2 :: b3 :: rest =>
    b64ch (b1 / 4) :: b64ch ((b1 % 4) * 16 + b2 / 16) ::
      b64ch ((b2 % 16) * 4 + b3 / 64) :: b64ch (b3 % 64) :: b64UrlEncode rest
  | [b1, b2] =>
    [b64ch (b1 / 4), b64ch ((b1 % 4) * 16 + b2 / 16), b64ch ((b2 % 16) * 4), '=']
  | [b1] => [b64ch (b1 / 4), b64ch ((b1 % 4) * 16), '=', '=']
  | [] => []

/-- Models Python `str.rstrip("=")`: drop every trailing pad character. -/
def rstripEq (cs : List Char) : List Char :=
  (cs.reverse.dropWhile (· == '=')).reverse

/-- The re-padding a downstream decoder performs before decoding unpadded
base64 (as the repository's own tests do): append `=` up to a multiple of
four characters. -/
def padTo4 (s : String) : String :=
  s ++ String.mk (List.replicate ((4 - s.length % 4) % 4) '=')

/-- Standard UTF-8 encoding of one scalar value (models CPython's encoder,
which these scalars always satisfy). -/
def utf8EncodeChar (c : Char) : List Nat :=
  let n := c.toNat
  if n < 0x80 then [n]
  else if n < 0x800 then [0xC0 + n / 64, 0x80 + n % 64]
  else if n < 0x10000 then [0xE0 + n / 4096, 0x80 + n / 64 % 64, 0x80 + n % 64]
  else [0xF0 + n / 262144, 0x80 + n / 4096 % 64, 0x80 + n / 64 % 64, 0x80 + n % 64]

/-- The UTF-8 bytes of a string (models Python `str.encode("utf-8")` and the
byte serialization the email generator performs on its ASCII output). -/
def strBytes (s : String) : List Nat := (s.data.map utf8EncodeChar).flatten

/-- Is `b` a UTF-8 continuation byte. -/
def isCont (b : Nat) : Bool := decide (0x80 ≤ b ∧ b ≤ 0xBF)

/-- The replacement character U+FFFD. -/
def replChar : Char := Char.ofNat 0xFFFD

/-- Models CPython `bytes.decode("utf-8", errors="replace")`: structurally
valid sequences decode to their scalar; an invalid or truncated sequence is
replaced by U+FFFD following the maximal-subpart practice CPython
implements (the longest prefix that could still start a valid sequence is
consumed per replacement; the second-byte ranges after 0xE0, 0xED, 0xF0 and
0xF4 are restricted as in the WHATWG algorithm, which excludes overlong
forms, surrogates and values above U+10FFFF).  Total by construction: it
never fails, matching the errors="replace" contract. -/
def utf8DecodeReplace (bs : List Nat) : List Char :=
  match bs with
  | [] => []
  | b :: rest =>
    if b < 0x80 then Char.ofNat b :: utf8DecodeReplace rest
    else if 0xC2 ≤ b ∧ b ≤ 0xDF then
      match rest with
      | [] => [replChar]
      | b2 :: rest2 =>
        if isCont b2 then
          Char.ofNat ((b - 0xC0) * 64 + (b2 - 0x80)) :: utf8DecodeReplace rest2
        else replChar :: utf8DecodeReplace (b2 :: rest2)
    else if 0xE0 ≤ b ∧ b ≤ 0xEF then
      match rest with
      | [] => [replChar]
      | b2 :: rest2 =>
        if (if b = 0xE0 then decide (0xA0 ≤ b2 ∧ b2 ≤ 0xBF)
            else if b = 0xED then decide (0x80 ≤ b2 ∧ b2 ≤ 0x9F)
            else isCont b2) then
          match rest2 with
          | [] => [replChar]
          | b3 :: rest3 =>
            if isCont b3 then
              Char.ofNat ((b - 0xE0) * 4096 + (b2 - 0x80) * 64 + (b3 - 0x80)) ::
                utf8DecodeReplace rest3
            else replChar :: utf8DecodeReplace (b3 :: rest3)
        else replChar :: utf8DecodeReplace (b2 :: rest2)
    else if 0xF0 ≤ b ∧ b ≤ 0xF4 then
      match rest with
      | [] => [replChar]
      | b2 :: rest2 =>
        if (if b = 0xF0 then decide (0x90 ≤ b2 ∧ b2 ≤ 0xBF)
            else if b = 0xF4 then decide (0x80 ≤ b2 ∧ b2 ≤ 0x8F)
            else isCont b2) then
          match rest2 with
          | [] => [replChar]
          | b3 :: rest3 =>
            if isCont b3 then
              match rest3 with
              | [] => [replChar]
              | b4 :: rest4 =>
                if isCont b4 then
                  Char.ofNat ((b - 0xF0) * 262144 + (b2 - 0x80) * 4096 +
                      (b3 - 0x80) * 64 + (b4 - 0x80)) :: utf8DecodeReplace rest4
                else replChar :: utf8DecodeReplace (b4 :: rest4)
            else replChar :: utf8DecodeReplace (b3 :: rest3)
        else replChar :: utf8DecodeReplace (b2 :: rest2)
    else replChar :: utf8DecodeReplace rest

/-- The text produced from decoded payload bytes. -/
def bytesDecodeReplace (bs : List Nat) : String := String.mk (utf8DecodeReplace bs)

/-! ## Body extractor (src/gmail_sdk/convenience.py lines 202-226) -/

/-- A Gmail `MessagePayload` tree: `mimeType` may be absent; `bodyData`
models `payload.get("body", {}).get("data")` (an absent `body` object and a
`body` object without a `data` key are indistinguishable to
`_extract_body`, which only evaluates `"data" in payload.get("body", {})`);
`parts` models `payload.get("parts", [])`. -/
inductive Payload where
  | node (mimeType : Option String) (bodyData : Option String)
      (parts : List Payload)

/-- The decode expression of convenience.py line 218:
`base64.urlsafe_b64decode(data).decode("utf-8", errors="replace")`; a
base64 error propagates as a raised exception, the UTF-8 step is total. -/
def decodeData (d : String) : Except String (Option String) :=
  match urlsafe_b64decode d with
  | .error e => .error e
  | .ok bs => .ok (some (bytesDecodeReplace bs))

mutual

/-- Embeds `ConvenienceMixin._extract_body` (convenience.py lines 202-226):
when the node's mimeType equals the wanted type and body data is present,
decode and return that data, otherwise scan `parts` in order and return the
first non-None result; a decode exception propagates.  Total, hence
terminating on every finite tree. -/
def extract_body : Payload → String → Except String (Option String)
  | .node mt bd parts, mime_type =>
    match mt, bd with
    | some t, some d =>
      if t = mime_type then decodeData d
      else extract_body_list parts mime_type
    | _, _ => extract_body_list parts mime_type

/-- The `for part in payload.get("parts", [])` loop of `_extract_body`. -/
def extract_body_list : List Payload → String → Except String (Option String)
  | [], _ => .ok none
  | p :: ps, mime_type =>
    match extract_body p mime_type with
    | .error e => .error e
    | .ok (some r) => .ok (some r)
    | .ok none => extract_body_list ps mime_type

end

mutual

/-- Specification-side view: the `body.data` of the first node in
depth-first pre-order whose mimeType equals the wanted type and whose body
data is present. -/
def firstMatch : Payload → String → Option String
  | .node mt bd parts, want =>
    if mt = some want ∧ bd.isSome then bd else firstMatchList parts want

/-- First match across a list of sibling subtrees, in order. -/
def firstMatchList : List Payload → String → Option String
  | [], _ => none
  | p :: ps, want =>
    match firstMatch p want with
    | some d => some d
    | none => firstMatchList ps want

end

/-- What extraction returns as a function of the first matching data. -/
def firstMatchD : Option String → Except String (Option String)
  | none => .ok none
  | some d => decodeData d

mutual

/-- Is every `body.data` string in the tree well-formed base64. -/
def allDataOk : Payload → Bool
  | .node _ bd parts =>
    (match bd with
     | some d =>
       match urlsafe_b64decode d with
       | .ok _ => true
       | .error _ => false
     | none => true) && allDataOkList parts

/-- `allDataOk` over a list of subtrees. -/
def allDataOkList : List Payload → Bool
  | [] => true
  | p :: ps => allDataOk p && allDataOkList ps

end

/-- Structural induction over the nested payload tree. -/
theorem Payload.inductionOn (motive : Payload → Prop)
    (h : ∀ mt bd parts, (∀ p ∈ parts, motive p) → motive (.node mt bd parts)) :
    ∀ p, motive p
  | .node mt bd parts =>
    h mt bd parts (fun q _ => Payload.inductionOn motive h q)
termination_by p => sizeOf p
decreasing_by
  rename_i hq
  have := List.sizeOf_lt_of_mem hq
  simp only [Payload.node.sizeOf_spec]
  omega

/-- The decode of present data never produces the absent result. -/
theorem decodeData_ne_ok_none (d : String) : decodeData d ≠ .ok none := by
  unfold decodeData
  cases urlsafe_b64decode d <;> simp

/-- List version of the extraction characterization, given it on members. -/
theorem extract_body_list_eq (want : String) (ps : List Payload)
    (ih : ∀ p ∈ ps, extract_body p want = firstMatchD (firstMatch p want)) :
    extract_body_list ps want = firstMatchD (firstMatchList ps want) := by
  induction ps with
  | nil => rfl
  | cons p ps ihl =>
    have hp := ih p (List.mem_cons_self p ps)
    have hrest := ihl (fun q hq => ih q (List.mem_cons_of_mem p hq))
    cases hm : firstMatch p want with
    | none =>
      rw [hm] at hp
      simp only [extract_body_list, hp, firstMatchList, hm, firstMatchD]
      exact hrest
    | some d =>
      rw [hm] at hp
      simp only [extract_body_list, hp, firstMatchList, hm, firstMatchD]
      cases hd : decodeData d with
      | error e => simp [hd]
      | ok o =>
        cases o with
        | none => exact absurd hd (decodeData_ne_ok_none d)
        | some r => simp [hd]

/-- `_extract_body` equals the decode of the depth-first first match. -/
theorem extract_body_eq (p : Payload) (want : String) :
    extract_body p want = firstMatchD (firstMatch p want) := by
  refine Payload.inductionOn
    (fun p => ∀ want, extract_body p want = firstMatchD (firstMatch p want))
    (fun mt bd parts ih want => ?_) p want
  have hlist := extract_body_list_eq want parts (fun q hq => ih q hq want)
  cases mt with
  | none => simpa [extract_body, firstMatch] using hlist
  | some t =>
    cases bd with
    | none => simpa [extract_body, firstMatch] using hlist
    | some d =>
      by_cases ht : t = want
      · simp [extract_body, firstMatch, ht, firstMatchD]
      · have : ¬ (some t = some want ∧ (some d).isSome) := by
          simp [ht]
        simpa [extract_body, firstMatch, ht, this] using hlist

/-- If every data field decodes, the list-level first match decodes. -/
theorem firstMatchList_decodable (want : String) (ps : List Payload)
    (h : allDataOkList ps = true)
    (ih : ∀ p ∈ ps, allDataOk p = true → ∀ d, firstMatch p want = some d →
      ∃ bs, urlsafe_b64decode d = .ok bs) :
    ∀ d, firstMatchList ps want = some d → ∃ bs, urlsafe_b64decode d = .ok bs := by
  induction ps with
  | nil => intro d hd; simp [firstMatchList] at hd
  | cons p ps ihl =>
    intro d hd
    rw [allDataOkList, Bool.and_eq_true] at h
    cases hm : firstMatch p want with
    | some d0 =>
      rw [firstMatchList, hm] at hd
      cases hd
      exact ih p (List.mem_cons_self p ps) h.1 d hm
    | none =>
      rw [firstMatchList, hm] at hd
      exact ihl h.2 (fun q hq => ih q (List.mem_cons_of_mem p hq)) d hd

/-- If every data field in the tree decodes, the first match decodes. -/
theorem firstMatch_decodable (p : Payload) (h : allDataOk p = true)
    (want : String) :
    ∀ d, firstMatch p want = some d → ∃ bs, urlsafe_b64decode d = .ok bs := by
  refine Payload.inductionOn
    (fun p => allDataOk p = true → ∀ d, firstMatch p want = some d →
      ∃ bs, urlsafe_b64decode d = .ok bs)
    (fun mt bd parts ih => ?_) p h
  intro hok d hd
  rw [allDataOk.eq_def] at hok
  simp only [Bool.and_eq_true] at hok
  by_cases hc : mt = some want ∧ bd.isSome
  · rw [firstMatch, if_pos hc] at hd
    subst hd
    rcases hok with ⟨h1, _⟩
    cases hdec : urlsafe_b64decode d with
    | ok bs => exact ⟨bs, rfl⟩
    | error e => simp [hdec] at h1
  · rw [firstMatch, if_neg hc] at hd
    exact firstMatchList_decodable want parts hok.2 ih d hd

/-! ## Claims C2, C9 -/

/-- C2 (counterexample): the claim asserts that extraction never raises even
on malformed base64.  It does: a text/plain leaf whose data is the two
characters "QQ" (length not a multiple of four) raises the binascii
incorrect-padding error, exactly as the repository's own tests assume when
they re-pad before decoding. -/
theorem c2_counterexample :
    extract_body (.node (some "text/plain") (some "QQ") []) "text/plain" =
      .error "Incorrect padding" := by
  rfl

/-- C2 (amended): for every payload tree whose data fields are well-formed
base64, extraction returns text or absent and never raises — in particular
the UTF-8 stage never fails: undecodable byte sequences are replaced, so any
data that base64-decodes (to arbitrary bytes) yields text.  Malformed base64,
however, raises a binascii error rather than being replaced. -/
theorem c2_no_throw_for_wellformed_base64 (p : Payload) (want : String)
    (h : allDataOk p = true) :
    (∃ r : Option String, extract_body p want = .ok r)
    ∧ ∀ (d : String) (bs : List Nat), urlsafe_b64decode d = .ok bs →
        decodeData d = .ok (some (bytesDecodeReplace bs)) := by
  constructor
  · rw [extract_body_eq]
    cases hm : firstMatch p want with
    | none => exact ⟨none, rfl⟩
    | some d =>
      obtain ⟨bs, hbs⟩ := firstMatch_decodable p h want d hm
      exact ⟨some (bytesDecodeReplace bs), by simp [firstMatchD, decodeData, hbs]⟩
  · intro d bs hbs
    simp [decodeData, hbs]

/-- C2 (witness): a leaf whose data is "gA==", valid base64 of the single
byte 0x80, which is not valid UTF-8; extraction still returns text. -/
theorem c2_witness :
    (∃ r : Option String,
      extract_body (.node (some "text/plain") (some "gA==") []) "text/plain" =
        .ok r)
    ∧ ∀ (d : String) (bs : List Nat), urlsafe_b64decode d = .ok bs →
        decodeData d = .ok (some (bytesDecodeReplace bs)) :=
  c2_no_throw_for_wellformed_base64 (.node (some "text/plain") (some "gA==") [])
    "text/plain" (by rfl)

/-- C9 (counterexample): the claim asserts that extraction returns the
decoded text of the first matching part or absent on every finite tree; on a
tree whose first matching part carries data "A" (a single base64 character)
it instead raises the binascii invalid-length error. -/
theorem c9_counterexample :
    extract_body (.node (some "multipart/alternative") none
        [.node (some "text/plain") (some "A") []]) "text/plain" =
      .error "Invalid base64-encoded string" := by
  rfl

/-- C9 (amended): on every finite payload tree, extraction terminates (the
embedding is total) and equals the decode of the data of the first part in
depth-first pre-order whose mimeType equals the wanted type and whose body
data is present — returning its decoded text when that data is well-formed
base64 and raising otherwise; when no part matches it returns absent, and
the empty payload returns absent. -/
theorem c9_first_match_order (p : Payload) (want : String) :
    extract_body p want = firstMatchD (firstMatch p want)
    ∧ (firstMatch p want = none → extract_body p want = .ok none)
    ∧ extract_body (.node none none []) want = .ok none :=
  ⟨extract_body_eq p want,
    fun h => by rw [extract_body_eq, h]; rfl,
    rfl⟩

/-- C9 (witness): the spec's own example shapes: a 3-level nested multipart
tree whose only text/plain leaf (base64 "RGVlcCB0ZXh0", "Deep text") is
returned, and a tree with no matching leaf returns absent. -/
theorem c9_witness :
    extract_body (.node (some "multipart/mixed") none
        [.node (some "multipart/related") none
          [.node (some "multipart/alternative") none
            [.node (some "text/plain") (some "RGVlcCB0ZXh0") []]]]) "text/plain" =
      .ok (some "Deep text")
    ∧ extract_body (.node (some "multipart/mixed") none
        [.node (some "application/pdf") none []]) "text/plain" = .ok none :=
  ⟨((c9_first_match_order (.node (some "multipart/mixed") none
      [.node (some "multipart/related") none
        [.node (some "multipart/alternative") none
          [.node (some "text/plain") (some "RGVlcCB0ZXh0") []]]]) "text/plain").1).trans
      (by rfl),
    (c9_first_match_order (.node (some "multipart/mixed") none
      [.node (some "application/pdf") none []]) "text/plain").2.1 rfl⟩

/-! ## Recipient resolver (src/gmail_sdk/convenience.py lines 106-167)

`reply_all` scans `getaddresses([orig_from, orig_to, orig_cc])`; the RFC
2822 address parser is the Python stdlib, an external collaborator, so the
resolver is analysed as a function of the parsed (display name, address)
pairs, which arrive in header order From, then To, then Cc, left to right
within a header. -/

/-- One parsed (display name, address) pair as produced by
`email.utils.getaddresses`. -/
structure ParsedAddress where
  displayName : String
  emailAddr : String
deriving DecidableEq

/-- `full = f"{display_name} <{email_addr}>" if display_name else email_addr`
(convenience.py line 155): the display name is preserved verbatim when
present, bare addresses are emitted bare. -/
def formatAddress (a : ParsedAddress) : String :=
  if a.displayName = "" then a.emailAddr
  else a.displayName ++ " <" ++ a.emailAddr ++ ">"

/-- `bare = email_addr.lower()` (convenience.py line 152). -/
def bareOf (a : ParsedAddress) : String := pyLower a.emailAddr

/-- The candidate-collection loop of `reply_all` (convenience.py lines
149-157), with the seen-set threaded exactly as in the source, returning the
kept candidates; the emitted strings are `formatAddress` of these (see
`collect_cc`). -/
def collect_cc_keep : List ParsedAddress → List String → String → List ParsedAddress
  | [], _, _ => []
  | a :: rest, seen, my_email =>
    if bareOf a ≠ "" ∧ bareOf a ∉ seen ∧ bareOf a ≠ my_email then
      a :: collect_cc_keep rest (bareOf a :: seen) my_email
    else collect_cc_keep rest seen my_email

/-- The `cc_addrs` list built by the loop (convenience.py lines 149-157). -/
def collect_cc : List ParsedAddress → List String → String → List String
  | [], _, _ => []
  | a :: rest, seen, my_email =>
    if bareOf a ≠ "" ∧ bareOf a ∉ seen ∧ bareOf a ≠ my_email then
      formatAddress a :: collect_cc rest (bareOf a :: seen) my_email
    else collect_cc rest seen my_email

/-- The primary recipient derivation
`reply_to = _get_header(headers, "Reply-To") or _get_header(headers, "From")`
(convenience.py line 130; `_get_header` returns "" for a missing header and
Python `or` falls through on the empty string), used unchanged as `to_addr`
on line 146 — with no self-address check. -/
def reply_all_to_addr (replyToHeader fromHeader : String) : String :=
  if replyToHeader = "" then fromHeader else replyToHeader

/-- The Cc derivation of `reply_all`: the seen-set is seeded with
`_extract_email(to_addr)` (`toAddrBare`, the parseaddr-extracted, lowered
bare address of the primary recipient, line 147), and the profile address is
lowered (line 141). -/
def reply_all_cc (toAddrBare profileEmail : String)
    (cands : List ParsedAddress) : List String :=
  collect_cc cands [toAddrBare] (pyLower profileEmail)

/-- The emitted strings are the formatted kept candidates. -/
theorem collect_cc_eq_map (my : String) (cands : List ParsedAddress) :
    ∀ seen, collect_cc cands seen my =
      (collect_cc_keep cands seen my).map formatAddress := by
  induction cands with
  | nil => intro seen; rfl
  | cons a rest ih =>
    intro seen
    by_cases hc : bareOf a ≠ "" ∧ bareOf a ∉ seen ∧ bareOf a ≠ my
    · rw [collect_cc, collect_cc_keep, if_pos hc, if_pos hc, List.map_cons, ih]
    · rw [collect_cc, collect_cc_keep, if_neg hc, if_neg hc, ih]

/-- Membership characterization of the kept bare addresses: a bare address
is kept exactly when it occurs among the candidates, is non-empty, is not in
the initial seen-set and is not the self address. -/
theorem collect_cc_keep_bare_mem (my : String) (cands : List ParsedAddress) :
    ∀ (seen : List String) (b : String),
      b ∈ (collect_cc_keep cands seen my).map bareOf ↔
        (b ∈ cands.map bareOf ∧ b ≠ "" ∧ b ∉ seen ∧ b ≠ my) := by
  induction cands with
  | nil => intro seen b; simp [collect_cc_keep]
  | cons a rest ih =>
    intro seen b
    by_cases hc : bareOf a ≠ "" ∧ bareOf a ∉ seen ∧ bareOf a ≠ my
    · obtain ⟨h1, h2, h3⟩ := hc
      rw [collect_cc_keep, if_pos ⟨h1, h2, h3⟩]
      simp only [List.map_cons, List.mem_cons, ih, not_or]
      constructor
      · rintro (rfl | ⟨hm, hne, ⟨hna, hns⟩, hnm⟩)
        · exact ⟨Or.inl rfl, h1, h2, h3⟩
        · exact ⟨Or.inr hm, hne, hns, hnm⟩
      · rintro ⟨(rfl | hm), hne, hns, hnm⟩
        · exact Or.inl rfl
        · by_cases hba : b = bareOf a
          · exact Or.inl hba
          · exact Or.inr ⟨hm, hne, ⟨hba, hns⟩, hnm⟩
    · rw [collect_cc_keep, if_neg hc]
      simp only [List.map_cons, List.mem_cons, ih]
      constructor
      · rintro ⟨hm, hne, hns, hnm⟩
        exact ⟨Or.inr hm, hne, hns, hnm⟩
      · rintro ⟨(rfl | hm), hne, hns, hnm⟩
        · exact absurd ⟨hne, hns, hnm⟩ hc
        · exact ⟨hm, hne, hns, hnm⟩

/-- No bare address is emitted twice: later duplicates are dropped. -/
theorem collect_cc_keep_nodup (my : String) (cands : List ParsedAddress) :
    ∀ seen, ((collect_cc_keep cands seen my).map bareOf).Nodup := by
  induction cands with
  | nil => intro seen; simp [collect_cc_keep]
  | cons a rest ih =>
    intro seen
    by_cases hc : bareOf a ≠ "" ∧ bareOf a ∉ seen ∧ bareOf a ≠ my
    · rw [collect_cc_keep, if_pos hc, List.map_cons, List.nodup_cons]
      refine ⟨?_, ih _⟩
      intro hmem
      have h := (collect_cc_keep_bare_mem my rest (bareOf a :: seen)
        (bareOf a)).mp hmem
      exact h.2.2.1 (List.mem_cons_self _ _)
    · rw [collect_cc_keep, if_neg hc]
      exact ih seen

/-- The first occurrence wins: every kept candidate is the first candidate
carrying its bare address, so the preserved display name is that of the
first occurrence. -/
theorem collect_cc_keep_first_occ (my : String) (cands : List ParsedAddress) :
    ∀ seen, ∀ a ∈ collect_cc_keep cands seen my,
      ∃ pre post, cands = pre ++ a :: post ∧ bareOf a ∉ pre.map bareOf := by
  induction cands with
  | nil => intro seen a ha; simp [collect_cc_keep] at ha
  | cons a0 rest ih =>
    intro seen a ha
    by_cases hc : bareOf a0 ≠ "" ∧ bareOf a0 ∉ seen ∧ bareOf a0 ≠ my
    · rw [collect_cc_keep, if_pos hc] at ha
      rcases List.mem_cons.mp ha with rfl | ha'
      · exact ⟨[], rest, rfl, by simp⟩
      · obtain ⟨pre, post, heq, hnp⟩ := ih (bareOf a0 :: seen) a ha'
        have hb := List.mem_map_of_mem bareOf ha'
        have hcond := (collect_cc_keep_bare_mem my rest (bareOf a0 :: seen)
          (bareOf a)).mp hb
        have hne : bareOf a ≠ bareOf a0 :=
          fun h => hcond.2.2.1 (h ▸ List.mem_cons_self _ _)
        refine ⟨a0 :: pre, post, by rw [heq]; rfl, ?_⟩
        simp only [List.map_cons, List.mem_cons, not_or]
        exact ⟨hne, hnp⟩
    · rw [collect_cc_keep, if_neg hc] at ha
      obtain ⟨pre, post, heq, hnp⟩ := ih seen a ha
      have hb := List.mem_map_of_mem bareOf ha
      have hcond := (collect_cc_keep_bare_mem my rest seen (bareOf a)).mp hb
      have hne : bareOf a ≠ bareOf a0 := by
        intro h
        exact hc (h ▸ ⟨hcond.2.1, hcond.2.2.1, hcond.2.2.2⟩)
      refine ⟨a0 :: pre, post, by rw [heq]; rfl, ?_⟩
      simp only [List.map_cons, List.mem_cons, not_or]
      exact ⟨hne, hnp⟩

/-! ## Claim C5 -/

/-- C5 (counterexample): the claim asserts the authenticated user's own
address never appears in the derived To/Cc set.  The derived To is
Reply-To-or-From with no self check: with self address "me@x.com", a
message from the user ("Me@X.com") with no Reply-To derives
To = "Me@X.com", whose lowered bare form is exactly the self address. -/
theorem c5_counterexample :
    reply_all_to_addr "" "Me@X.com" = "Me@X.com"
    ∧ pyLower "Me@X.com" = "me@x.com" := by
  exact ⟨rfl, rfl⟩

/-- C5 (amended): the Cc side of the claim holds: an address is emitted to
ccList iff its lowered bare address is non-empty, differs from the seed
(primaryTo's bare address), differs from the lowered self address, and
occurs among the candidates scanned in order From, To, Cc; no bare address
is emitted twice; each emitted entry is the first candidate bearing its
bare address, formatted with its display name preserved ("name <addr>" when
a display name is present, the bare address otherwise).  The To side does
not hold: the derived To is Reply-To-or-From unconditionally and can be the
user's own address (see the counterexample); the user's address never
appears in the derived Cc list only. -/
theorem c5_reply_all_recipients (toAddrBare profileEmail : String)
    (cands : List ParsedAddress) :
    (reply_all_cc toAddrBare profileEmail cands =
      (collect_cc_keep cands [toAddrBare] (pyLower profileEmail)).map formatAddress)
    ∧ (∀ b : String,
        b ∈ (collect_cc_keep cands [toAddrBare] (pyLower profileEmail)).map bareOf ↔
          (b ∈ cands.map bareOf ∧ b ≠ "" ∧ b ≠ toAddrBare ∧
            b ≠ pyLower profileEmail))
    ∧ ((collect_cc_keep cands [toAddrBare] (pyLower profileEmail)).map bareOf).Nodup
    ∧ (∀ a ∈ collect_cc_keep cands [toAddrBare] (pyLower profileEmail),
        ∃ pre post, cands = pre ++ a :: post ∧ bareOf a ∉ pre.map bareOf)
    ∧ (∀ replyToHeader fromHeader : String,
        reply_all_to_addr replyToHeader fromHeader =
          if replyToHeader = "" then fromHeader else replyToHeader) := by
  refine ⟨collect_cc_eq_map _ cands _, ?_, collect_cc_keep_nodup _ cands _,
    collect_cc_keep_first_occ _ cands _, fun _ _ => rfl⟩
  intro b
  rw [collect_cc_keep_bare_mem]
  simp [List.mem_singleton]

/-- C5 (witness): the spec's own recipient example — From Alice, To Me and
Bob, self me@x.com, primaryTo Alice: ccList is exactly Bob with his display
name, and Bob is the first candidate bearing his bare address. -/
theorem c5_witness :
    reply_all_cc "alice@x.com" "me@x.com"
        [⟨"Alice", "alice@x.com"⟩, ⟨"Me", "me@x.com"⟩, ⟨"Bob", "bob@x.com"⟩] =
      ["Bob <bob@x.com>"]
    ∧ ∃ pre post,
        [⟨"Alice", "alice@x.com"⟩, ⟨"Me", "me@x.com"⟩,
          (⟨"Bob", "bob@x.com"⟩ : ParsedAddress)] =
          pre ++ (⟨"Bob", "bob@x.com"⟩ : ParsedAddress) :: post
        ∧ bareOf ⟨"Bob", "bob@x.com"⟩ ∉ pre.map bareOf :=
  ⟨((c5_reply_all_recipients "alice@x.com" "me@x.com"
      [⟨"Alice", "alice@x.com"⟩, ⟨"Me", "me@x.com"⟩, ⟨"Bob", "bob@x.com"⟩]).1).trans
      (by rfl),
    (c5_reply_all_recipients "alice@x.com" "me@x.com"
      [⟨"Alice", "alice@x.com"⟩, ⟨"Me", "me@x.com"⟩, ⟨"Bob", "bob@x.com"⟩]).2.2.2.1
      ⟨"Bob", "bob@x.com"⟩ (by decide)⟩

/-! ## Wire serialization and encoding (mime_utils.py lines 10-13) -/

/-- The header loop of the email generator: one "Name: value" line per
assigned header, in order. -/
def serializeHeaders : List (String × String) → String
  | [] => ""
  | h :: t => h.1 ++ ": " ++ h.2 ++ "\n" ++ serializeHeaders t

/-- Models `msg.as_bytes()` for a single-part `MIMEText` with an ASCII
payload under the compat32 policy: the three headers set at construction
time (Content-Type with the us-ascii charset, MIME-Version,
Content-Transfer-Encoding 7bit) in that order, then the headers assigned
afterwards, a blank line, and the payload verbatim.  Exact for ASCII header
values short enough not to be folded (name, colon, space and value within
78 characters) and ASCII bodies. -/
def serializeText (subtype body : String) (headers : List (String × String)) :
    String :=
  "Content-Type: text/" ++ subtype ++
    "; charset=\"us-ascii\"\nMIME-Version: 1.0\nContent-Transfer-Encoding: 7bit\n"
    ++ serializeHeaders headers ++ "\n" ++ body

/-- Models `msg.as_bytes()` for the two shapes the composers build.  For a
multipart message the generator draws a random boundary at flatten time;
it is passed here as the `boundary` parameter, and each attached part is
emitted with its own MIMEText header block. -/
def serializeMime (boundary : String) (m : MimeMsg) : String :=
  match m.content with
  | .text st b => serializeText st b m.headers
  | .multipart st parts =>
    "Content-Type: multipart/" ++ st ++ "; boundary=\"" ++ boundary ++
      "\"\nMIME-Version: 1.0\n" ++ serializeHeaders m.headers ++ "\n" ++
      String.join (parts.map
        (fun p => "--" ++ boundary ++ "\n" ++ serializeText p.1 p.2 [])) ++
      "--" ++ boundary ++ "--\n"

/-- Embeds `encode_message` (mime_utils.py lines 10-13):
`base64.urlsafe_b64encode(mime_msg.as_bytes()).decode("ascii").rstrip("=")`. -/
def encode_message (boundary : String) (m : MimeMsg) : String :=
  String.mk (rstripEq (b64UrlEncode (strBytes (serializeMime boundary m))))

/-- Embeds `build_simple_message` (mime_utils.py lines 16-54): the assembly
of `build_simple_mime` followed by `encode_message`. -/
def build_simple_message (boundary : String) (to_ subject body : String)
    (from_addr cc bcc html_body : Option String) : String :=
  encode_message boundary
    (build_simple_mime to_ subject body from_addr cc bcc html_body)

/-- Is the string pure ASCII. -/
def asciiOnly (s : String) : Bool := s.data.all (fun c => decide (c.toNat < 128))

/-- Is the string a foldable-free ASCII header value: pure ASCII without a
newline. -/
def asciiNoNl (s : String) : Bool :=
  s.data.all (fun c => decide (c.toNat < 128 ∧ c ≠ '\n'))

/-! ## base64 encode/decode lemmas -/

/-- No alphabet character is the pad character. -/
theorem b64ch_ne_pad (n : Nat) : b64ch n ≠ '=' := by
  by_cases h : n < 64
  · exact (by decide : ∀ m, m < 64 → b64UrlAlphabet.getD m 'A' ≠ '=') n h
  · rw [b64ch, List.getD_eq_default]
    · decide
    · have : b64UrlAlphabet.length = 64 := by decide
      omega

/-- Every alphabet character is ASCII. -/
theorem b64ch_ascii (n : Nat) : (b64ch n).toNat < 128 := by
  by_cases h : n < 64
  · exact (by decide : ∀ m, m < 64 → (b64UrlAlphabet.getD m 'A').toNat < 128) n h
  · rw [b64ch, List.getD_eq_default]
    · decide
    · have : b64UrlAlphabet.length = 64 := by decide
      omega

/-- Translating an alphabet character of sextet value `s` back through the
urlsafe translation yields a standard-alphabet character of value `s`, and
never the pad character. -/
theorem b64_sextet_round : ∀ s, s < 64 →
    urlsafeTranslate (b64ch s) ≠ '=' ∧
    sextetOf (urlsafeTranslate (b64ch s)) = some s := by
  decide

/-- The encoder output is a pad-free block followed by at most two pads,
with total length a multiple of four. -/
theorem b64UrlEncode_structure (bs : List Nat) :
    ∃ body p, b64UrlEncode bs = body ++ List.replicate p '=' ∧ p ≤ 2 ∧
      (∀ c ∈ body, c ≠ '=') ∧ (body.length + p) % 4 = 0 := by
  induction bs using b64UrlEncode.induct with
  | case1 b1 b2 b3 rest ih =>
    obtain ⟨body, p, heq, hp, hne, hlen⟩ := ih
    refine ⟨b64ch (b1 / 4) :: b64ch ((b1 % 4) * 16 + b2 / 16) ::
      b64ch ((b2 % 16) * 4 + b3 / 64) :: b64ch (b3 % 64) :: body, p, ?_, hp, ?_, ?_⟩
    · rw [b64UrlEncode, heq]
      rfl
    · intro c hc
      simp only [List.mem_cons] at hc
      rcases hc with rfl | rfl | rfl | rfl | hc
      · exact b64ch_ne_pad _
      · exact b64ch_ne_pad _
      · exact b64ch_ne_pad _
      · exact b64ch_ne_pad _
      · exact hne c hc
    · simp only [List.length_cons]
      omega
  | case2 b1 b2 =>
    refine ⟨[b64ch (b1 / 4), b64ch ((b1 % 4) * 16 + b2 / 16),
      b64ch ((b2 % 16) * 4)], 1, by rfl, by omega, ?_, by simp⟩
    intro c hc
    simp only [List.mem_cons, List.not_mem_nil, or_false] at hc
    rcases hc with rfl | rfl | rfl
    · exact b64ch_ne_pad _
    · exact b64ch_ne_pad _
    · exact b64ch_ne_pad _
  | case3 b1 =>
    refine ⟨[b64ch (b1 / 4), b64ch ((b1 % 4) * 16)], 2, by rfl, by omega, ?_,
      by simp⟩
    intro c hc
    simp only [List.mem_cons, List.not_mem_nil, or_false] at hc
    rcases hc with rfl | rfl
    · exact b64ch_ne_pad _
    · exact b64ch_ne_pad _
  | case4 => exact ⟨[], 0, rfl, by omega, by simp, by rfl⟩

/-- Dropping pads from the front skips a replicate block. -/
theorem dropWhile_pad_replicate (p : Nat) (l : List Char) :
    (List.replicate p '=' ++ l).dropWhile (· == '=') = l.dropWhile (· == '=') := by
  induction p with
  | zero => rfl
  | succ n ih => simp [List.replicate_succ, ih]

/-- Stripping the trailing pads of a pad-free block followed by pads
recovers the block. -/
theorem rstripEq_append_pads (body : List Char) (p : Nat)
    (hne : ∀ c ∈ body, c ≠ '=') :
    rstripEq (body ++ List.replicate p '=') = body := by
  rw [rstripEq, List.reverse_append, List.reverse_replicate,
    dropWhile_pad_replicate]
  cases hrb : body.reverse with
  | nil =>
    have : body = [] := by simpa using congrArg List.reverse hrb
    simp [this]
  | cons x t =>
    have hx : x ∈ body := by
      have : x ∈ body.reverse := by rw [hrb]; exact List.mem_cons_self x t
      simpa using this
    have hxe : (x == '=') = false := by
      simpa using hne x hx
    rw [List.dropWhile_cons, hxe]
    simp [← hrb]

/-- The unpadded output contains no pad character at all. -/
theorem encode_message_no_pad (bs : List Nat) :
    '=' ∉ rstripEq (b64UrlEncode bs) := by
  obtain ⟨body, p, heq, _, hne, _⟩ := b64UrlEncode_structure bs
  rw [heq, rstripEq_append_pads body p hne]
  intro hmem
  exact hne '=' hmem rfl

/-- Re-padding the stripped output recovers the padded encoder output. -/
theorem padTo4_rstrip (bs : List Nat) :
    (padTo4 (String.mk (rstripEq (b64UrlEncode bs)))).data = b64UrlEncode bs := by
  obtain ⟨body, p, heq, hp, hne, hlen⟩ := b64UrlEncode_structure bs
  rw [heq, rstripEq_append_pads body p hne]
  have hlen2 : (4 - (String.mk body).length % 4) % 4 = p := by
    have : (String.mk body).length = body.length := rfl
    rw [this]
    omega
  rw [padTo4, hlen2]
  rfl

/-- One decoder step on a data character at quad position 0. -/
theorem a2b_step0 (c : Char) (rest : List Char) (lc pads : Nat)
    (out : List Nat) (v : Nat) (hne : c ≠ '=') (hv : sextetOf c = some v) :
    a2bBase64 (c :: rest) 0 lc pads out = a2bBase64 rest 1 v 0 out := by
  rw [a2bBase64, if_neg hne, hv]

/-- One decoder step on a data character at quad position 1. -/
theorem a2b_step1 (c : Char) (rest : List Char) (lc pads : Nat)
    (out : List Nat) (v : Nat) (hne : c ≠ '=') (hv : sextetOf c = some v) :
    a2bBase64 (c :: rest) 1 lc pads out =
      a2bBase64 rest 2 (v % 16) 0 (out ++ [lc * 4 + v / 16]) := by
  rw [a2bBase64, if_neg hne, hv]

/-- One decoder step on a data character at quad position 2. -/
theorem a2b_step2 (c : Char) (rest : List Char) (lc pads : Nat)
    (out : List Nat) (v : Nat) (hne : c ≠ '=') (hv : sextetOf c = some v) :
    a2bBase64 (c :: rest) 2 lc pads out =
      a2bBase64 rest 3 (v % 4) 0 (out ++ [lc * 16 + v / 4]) := by
  rw [a2bBase64, if_neg hne, hv]

/-- One decoder step on a data character at quad position 3. -/
theorem a2b_step3 (c : Char) (rest : List Char) (lc pads : Nat)
    (out : List Nat) (v : Nat) (hne : c ≠ '=') (hv : sextetOf c = some v) :
    a2bBase64 (c :: rest) 3 lc pads out =
      a2bBase64 rest 0 0 0 (out ++ [lc * 64 + v]) := by
  rw [a2bBase64, if_neg hne, hv]

/-- A first pad at quad position 2 is recorded and decoding continues. -/
theorem a2b_pad2_first (rest : List Char) (lc : Nat) (out : List Nat) :
    a2bBase64 ('=' :: rest) 2 lc 0 out = a2bBase64 rest 2 lc 1 out := by
  simp [a2bBase64]

/-- A second pad at quad position 2 completes the quad and ends decoding. -/
theorem a2b_pad2_done (rest : List Char) (lc : Nat) (out : List Nat) :
    a2bBase64 ('=' :: rest) 2 lc 1 out = .ok out := by
  simp [a2bBase64]

/-- A pad at quad position 3 completes the quad and ends decoding. -/
theorem a2b_pad3_done (rest : List Char) (lc : Nat) (out : List Nat) :
    a2bBase64 ('=' :: rest) 3 lc 0 out = .ok out := by
  simp [a2bBase64]

/-- The pad character is fixed by the urlsafe translation. -/
theorem urlsafeTranslate_pad : urlsafeTranslate '=' = '=' := rfl

/-- Decoding the translated encoder output appends exactly the original
bytes to the accumulator. -/
theorem a2b_of_encode (bs : List Nat) (h : ∀ b ∈ bs, b < 256) :
    ∀ out, a2bBase64 ((b64UrlEncode bs).map urlsafeTranslate) 0 0 0 out =
      .ok (out ++ bs) := by
  induction bs using b64UrlEncode.induct with
  | case1 b1 b2 b3 rest ih =>
    intro out
    have hb1 : b1 < 256 := h b1 (by simp)
    have hb2 : b2 < 256 := h b2 (by simp)
    have hb3 : b3 < 256 := h b3 (by simp)
    have k1 := b64_sextet_round (b1 / 4) (by omega)
    have k2 := b64_sextet_round ((b1 % 4) * 16 + b2 / 16) (by omega)
    have k3 := b64_sextet_round ((b2 % 16) * 4 + b3 / 64) (by omega)
    have k4 := b64_sextet_round (b3 % 64) (by omega)
    rw [b64UrlEncode]
    simp only [List.map_cons]
    rw [a2b_step0 _ _ _ _ _ _ k1.1 k1.2, a2b_step1 _ _ _ _ _ _ k2.1 k2.2,
      a2b_step2 _ _ _ _ _ _ k3.1 k3.2, a2b_step3 _ _ _ _ _ _ k4.1 k4.2]
    rw [ih (fun b hb => h b (by simp [hb])) _]
    have e1 : (b1 / 4) * 4 + ((b1 % 4) * 16 + b2 / 16) / 16 = b1 := by omega
    have e2 : ((b1 % 4) * 16 + b2 / 16) % 16 * 16 +
        ((b2 % 16) * 4 + b3 / 64) / 4 = b2 := by omega
    have e3 : ((b2 % 16) * 4 + b3 / 64) % 4 * 64 + b3 % 64 = b3 := by omega
    rw [e1, e2, e3]
    simp
  | case2 b1 b2 =>
    intro out
    have hb1 : b1 < 256 := h b1 (by simp)
    have hb2 : b2 < 256 := h b2 (by simp)
    have k1 := b64_sextet_round (b1 / 4) (by omega)
    have k2 := b64_sextet_round ((b1 % 4) * 16 + b2 / 16) (by omega)
    have k3 := b64_sextet_round ((b2 % 16) * 4) (by omega)
    rw [b64UrlEncode]
    simp only [List.map_cons, List.map_nil, urlsafeTranslate_pad]
    rw [a2b_step0 _ _ _ _ _ _ k1.1 k1.2, a2b_step1 _ _ _ _ _ _ k2.1 k2.2,
      a2b_step2 _ _ _ _ _ _ k3.1 k3.2, a2b_pad3_done]
    have e1 : (b1 / 4) * 4 + ((b1 % 4) * 16 + b2 / 16) / 16 = b1 := by omega
    have e2 : ((b1 % 4) * 16 + b2 / 16) % 16 * 16 + ((b2 % 16) * 4) / 4 = b2 := by
      omega
    rw [e1, e2]
    simp
  | case3 b1 =>
    intro out
    have hb1 : b1 < 256 := h b1 (by simp)
    have k1 := b64_sextet_round (b1 / 4) (by omega)
    have k2 := b64_sextet_round ((b1 % 4) * 16) (by omega)
    rw [b64UrlEncode]
    simp only [List.map_cons, List.map_nil, urlsafeTranslate_pad]
    rw [a2b_step0 _ _ _ _ _ _ k1.1 k1.2, a2b_step1 _ _ _ _ _ _ k2.1 k2.2,
      a2b_pad2_first, a2b_pad2_done]
    have e1 : (b1 / 4) * 4 + ((b1 % 4) * 16) / 16 = b1 := by omega
    rw [e1]
  | case4 =>
    intro out
    simp [b64UrlEncode, a2bBase64]

/-- Every character of the encoder output is ASCII. -/
theorem b64UrlEncode_ascii (bs : List Nat) :
    ∀ c ∈ b64UrlEncode bs, c.toNat < 128 := by
  induction bs using b64UrlEncode.induct with
  | case1 b1 b2 b3 rest ih =>
    intro c hc
    rw [b64UrlEncode] at hc
    simp only [List.mem_cons] at hc
    rcases hc with rfl | rfl | rfl | rfl | hc
    · exact b64ch_ascii _
    · exact b64ch_ascii _
    · exact b64ch_ascii _
    · exact b64ch_ascii _
    · exact ih c hc
  | case2 b1 b2 =>
    intro c hc
    rw [b64UrlEncode] at hc
    simp only [List.mem_cons, List.not_mem_nil, or_false] at hc
    rcases hc with rfl | rfl | rfl | rfl
    · exact b64ch_ascii _
    · exact b64ch_ascii _
    · exact b64ch_ascii _
    · decide
  | case3 b1 =>
    intro c hc
    rw [b64UrlEncode] at hc
    simp only [List.mem_cons, List.not_mem_nil, or_false] at hc
    rcases hc with rfl | rfl | rfl | rfl
    · exact b64ch_ascii _
    · exact b64ch_ascii _
    · decide
    · decide
  | case4 =>
    intro c hc
    rw [b64UrlEncode] at hc
    exact absurd hc (List.not_mem_nil c)

/-- Decoding the re-padded stripped encoding recovers the bytes: the
documented downstream contract (re-add padding, then urlsafe-decode). -/
theorem decode_padded_encode (bs : List Nat) (h : ∀ b ∈ bs, b < 256) :
    urlsafe_b64decode (padTo4 (String.mk (rstripEq (b64UrlEncode bs)))) =
      .ok bs := by
  rw [urlsafe_b64decode, padTo4_rstrip bs]
  rw [if_pos]
  · rw [a2b_of_encode bs h []]
    simp
  · rw [List.all_eq_true]
    intro c hc
    exact decide_eq_true (b64UrlEncode_ascii bs c hc)

/-- UTF-8 encoding of pure ASCII text is the identity on code points. -/
theorem strBytes_ascii (l : List Char) (h : ∀ c ∈ l, c.toNat < 128) :
    (l.map utf8EncodeChar).flatten = l.map Char.toNat := by
  induction l with
  | nil => rfl
  | cons c t ih =>
    have hc := h c (List.mem_cons_self c t)
    simp only [List.map_cons, List.flatten_cons,
      ih (fun x hx => h x (List.mem_cons_of_mem c hx))]
    rw [utf8EncodeChar]
    simp [hc]

/-- Decoding pure ASCII code points recovers the characters. -/
theorem utf8DecodeReplace_ascii (l : List Char) (h : ∀ c ∈ l, c.toNat < 128) :
    utf8DecodeReplace (l.map Char.toNat) = l := by
  induction l with
  | nil => rfl
  | cons c t ih =>
    have hc := h c (List.mem_cons_self c t)
    rw [List.map_cons, utf8DecodeReplace.eq_def]
    simp [hc, Char.ofNat_toNat, ih (fun x hx => h x (List.mem_cons_of_mem c hx))]

/-- Round trip of the byte serialization on ASCII text. -/
theorem bytesDecodeReplace_ascii (s : String) (h : asciiOnly s = true) :
    bytesDecodeReplace (strBytes s) = s := by
  have hl : ∀ c ∈ s.data, c.toNat < 128 := by
    rw [asciiOnly, List.all_eq_true] at h
    intro c hc
    simpa using h c hc
  rw [bytesDecodeReplace, strBytes, strBytes_ascii s.data hl,
    utf8DecodeReplace_ascii s.data hl]

/-- The fixed wire prefix of a single-part plain message, up to and
including "To: ". -/
def p1 : String :=
  "Content-Type: text/plain; charset=\"us-ascii\"\nMIME-Version: 1.0\nContent-Transfer-Encoding: 7bit\nTo: "

/-- The wire bytes of the composed single-part plain message, split into the
fixed prefix, the To value, the Subject line and the body. -/
theorem serialize_simple_shape (boundary to_ subject body : String) :
    (serializeMime boundary
        (build_simple_mime to_ subject body none none none none)).data =
      p1.data ++ (to_.data ++ ('\n' :: ("Subject: ".data ++
        (subject.data ++ ('\n' :: '\n' :: body.data))))) := by
  simp [serializeMime, build_simple_mime, simpleContent, optHeader,
    serializeText, serializeHeaders, p1, String.data_append, List.append_assoc]

/-- Taking up to a separator that does not occur in the head block yields
the head block. -/
theorem takeWhile_ne_append (sep : Char) (a r : List Char) (h : sep ∉ a) :
    (a ++ sep :: r).takeWhile (fun c => c != sep) = a := by
  induction a with
  | nil => simp
  | cons x t ih =>
    have hx : x ≠ sep := fun hx => h (hx ▸ List.mem_cons_self x t)
    simp only [List.cons_append, List.takeWhile_cons]
    simp [hx, ih (fun ht => h (List.mem_cons_of_mem x ht))]

/-- Dropping up to a separator that does not occur in the head block leaves
the separator and the tail. -/
theorem dropWhile_ne_append (sep : Char) (a r : List Char) (h : sep ∉ a) :
    (a ++ sep :: r).dropWhile (fun c => c != sep) = sep :: r := by
  induction a with
  | nil => simp
  | cons x t ih =>
    have hx : x ≠ sep := fun hx => h (hx ▸ List.mem_cons_self x t)
    simp only [List.cons_append, List.dropWhile_cons]
    simp [hx, ih (fun ht => h (List.mem_cons_of_mem x ht))]

/-- Decoder-side extraction of the To value from the wire bytes. -/
def wireTo (l : List Char) : List Char :=
  (l.drop p1.length).takeWhile (fun c => c != '\n')

/-- The wire bytes from the newline that ends the To line onwards. -/
def restAfterTo (l : List Char) : List Char :=
  (l.drop p1.length).dropWhile (fun c => c != '\n')

/-- Decoder-side extraction of the Subject value from the wire bytes. -/
def wireSubject (l : List Char) : List Char :=
  ((restAfterTo l).drop 10).takeWhile (fun c => c != '\n')

/-- Decoder-side extraction of the body from the wire bytes. -/
def wireBody (l : List Char) : List Char :=
  (((restAfterTo l).drop 10).dropWhile (fun c => c != '\n')).drop 2

/-- On a serialized single-part plain message with newline-free To and
Subject values, the extractors recover exactly the composer inputs. -/
theorem wire_extract (boundary to_ subject body : String)
    (hto : '\n' ∉ to_.data) (hsub : '\n' ∉ subject.data) :
    wireTo (serializeMime boundary
        (build_simple_mime to_ subject body none none none none)).data = to_.data
    ∧ wireSubject (serializeMime boundary
        (build_simple_mime to_ subject body none none none none)).data =
        subject.data
    ∧ wireBody (serializeMime boundary
        (build_simple_mime to_ subject body none none none none)).data =
        body.data := by
  have hdrop : ((serializeMime boundary
      (build_simple_mime to_ subject body none none none none)).data).drop
        p1.length =
      to_.data ++ ('\n' :: ("Subject: ".data ++
        (subject.data ++ ('\n' :: '\n' :: body.data)))) := by
    rw [serialize_simple_shape]
    rw [show p1.length = p1.data.length from rfl]
    exact List.drop_left p1.data _
  have hrest : restAfterTo (serializeMime boundary
      (build_simple_mime to_ subject body none none none none)).data =
      '\n' :: ("Subject: ".data ++ (subject.data ++ ('\n' :: '\n' :: body.data))) := by
    rw [restAfterTo, hdrop, dropWhile_ne_append '\n' _ _ hto]
  refine ⟨?_, ?_, ?_⟩
  · rw [wireTo, hdrop, takeWhile_ne_append '\n' _ _ hto]
  · rw [wireSubject, hrest]
    rw [show (10 : Nat) = ('\n' :: "Subject: ".data).length from rfl]
    rw [show ('\n' :: ("Subject: ".data ++ (subject.data ++ ('\n' :: '\n' :: body.data)))) =
      ('\n' :: "Subject: ".data) ++ (subject.data ++ ('\n' :: '\n' :: body.data)) from rfl]
    rw [List.drop_left]
    rw [show (subject.data ++ ('\n' :: '\n' :: body.data)) =
      subject.data ++ '\n' :: ('\n' :: body.data) from rfl]
    rw [takeWhile_ne_append '\n' _ _ hsub]
  · rw [wireBody, hrest]
    rw [show (10 : Nat) = ('\n' :: "Subject: ".data).length from rfl]
    rw [show ('\n' :: ("Subject: ".data ++ (subject.data ++ ('\n' :: '\n' :: body.data)))) =
      ('\n' :: "Subject: ".data) ++ (subject.data ++ ('\n' :: '\n' :: body.data)) from rfl]
    rw [List.drop_left]
    rw [show (subject.data ++ ('\n' :: '\n' :: body.data)) =
      subject.data ++ '\n' :: ('\n' :: body.data) from rfl]
    rw [dropWhile_ne_append '\n' _ _ hsub]
    rfl

/-! ## Claim C8 -/

/-- C8: for single-part messages with ASCII, unfolded header values (pure
ASCII, no newline, the domain on which the wire-format model is exact) and
an ASCII body, the composer output is unpadded URL-safe base64 with no `=`
anywhere; re-adding padding and urlsafe-decoding recovers exactly the wire
bytes of the assembled message; decoding those bytes as UTF-8 recovers the
wire text; and the To, Subject and body read back from the wire text are
exactly the composer inputs. -/
theorem c8_encoding_roundtrip (boundary to_ subject body : String)
    (hto : asciiNoNl to_ = true) (hsub : asciiNoNl subject = true)
    (hbody : asciiOnly body = true) :
    '=' ∉ (build_simple_message boundary to_ subject body
        none none none none).data
    ∧ urlsafe_b64decode (padTo4 (build_simple_message boundary to_ subject body
        none none none none)) =
      .ok (strBytes (serializeMime boundary
        (build_simple_mime to_ subject body none none none none)))
    ∧ bytesDecodeReplace (strBytes (serializeMime boundary
        (build_simple_mime to_ subject body none none none none))) =
      serializeMime boundary (build_simple_mime to_ subject body none none none none)
    ∧ (wireTo (serializeMime boundary
          (build_simple_mime to_ subject body none none none none)).data = to_.data
      ∧ wireSubject (serializeMime boundary
          (build_simple_mime to_ subject body none none none none)).data =
          subject.data
      ∧ wireBody (serializeMime boundary
          (build_simple_mime to_ subject body none none none none)).data =
          body.data) := by
  have htoA : ∀ c ∈ to_.data, c.toNat < 128 ∧ c ≠ '\n' := by
    rw [asciiNoNl, List.all_eq_true] at hto
    intro c hc
    simpa using hto c hc
  have hsubA : ∀ c ∈ subject.data, c.toNat < 128 ∧ c ≠ '\n' := by
    rw [asciiNoNl, List.all_eq_true] at hsub
    intro c hc
    simpa using hsub c hc
  have hbodyA : ∀ c ∈ body.data, c.toNat < 128 := by
    rw [asciiOnly, List.all_eq_true] at hbody
    intro c hc
    simpa using hbody c hc
  have hser : ∀ c ∈ (serializeMime boundary
      (build_simple_mime to_ subject body none none none none)).data,
      c.toNat < 128 := by
    intro c hc
    rw [serialize_simple_shape] at hc
    rcases List.mem_append.mp hc with hc | hc
    · exact (by decide : ∀ c ∈ p1.data, c.toNat < 128) c hc
    rcases List.mem_append.mp hc with hc | hc
    · exact (htoA c hc).1
    rcases List.mem_cons.mp hc with rfl | hc
    · decide
    rcases List.mem_append.mp hc with hc | hc
    · exact (by decide : ∀ c ∈ "Subject: ".data, c.toNat < 128) c hc
    rcases List.mem_append.mp hc with hc | hc
    · exact (hsubA c hc).1
    rcases List.mem_cons.mp hc with rfl | hc
    · decide
    rcases List.mem_cons.mp hc with rfl | hc
    · decide
    · exact hbodyA c hc
  have hbytes : strBytes (serializeMime boundary
      (build_simple_mime to_ subject body none none none none)) =
      (serializeMime boundary
        (build_simple_mime to_ subject body none none none none)).data.map
        Char.toNat := by
    rw [strBytes, strBytes_ascii _ hser]
  have hlt : ∀ b ∈ strBytes (serializeMime boundary
      (build_simple_mime to_ subject body none none none none)), b < 256 := by
    rw [hbytes]
    intro b hb
    simp only [List.mem_map] at hb
    obtain ⟨c, hc, rfl⟩ := hb
    have := hser c hc
    omega
  have hsa : asciiOnly (serializeMime boundary
      (build_simple_mime to_ subject body none none none none)) = true := by
    rw [asciiOnly, List.all_eq_true]
    intro c hc
    exact decide_eq_true (hser c hc)
  refine ⟨?_, ?_, bytesDecodeReplace_ascii _ hsa,
    wire_extract boundary to_ subject body
      (fun hc => (htoA '\n' hc).2 rfl) (fun hc => (hsubA '\n' hc).2 rfl)⟩
  · rw [build_simple_message, encode_message]
    exact encode_message_no_pad _
  · rw [build_simple_message, encode_message]
    exact decode_padded_encode _ hlt

/-- C8 (witness): a concrete message: no pad characters in the output and
the To value read back from the wire bytes is the input. -/
theorem c8_witness :
    '=' ∉ (build_simple_message "bnd" "a@x.com" "Hi" "Hello"
        none none none none).data
    ∧ wireTo (serializeMime "bnd"
        (build_simple_mime "a@x.com" "Hi" "Hello" none none none none)).data =
      "a@x.com".data :=
  ⟨(c8_encoding_roundtrip "bnd" "a@x.com" "Hi" "Hello"
      (by decide) (by decide) (by decide)).1,
    (c8_encoding_roundtrip "bnd" "a@x.com" "Hi" "Hello"
      (by decide) (by decide) (by decide)).2.2.2.1⟩
